import Mathlib

/-!
Shallow embedding of the distil repository's core pipeline
(src/distil/llm.py and src/distil/core.py), with theorems settling the
specification's claims about it.

External effects are made explicit:
* the summarization service (LiteLLM `completion`) is an oracle argument;
  its non-streaming form is `String → String → String` (deterministic,
  total) or `String → String → Except String String` when service errors
  matter; its streaming form returns `Except String (List String × Option
  String)`: either the call itself raises, or it delivers a list of content
  deltas followed by an optional mid-stream exception;
* `feedparser.parse` is an oracle `Except String Feed` (a parse that can
  raise); wall-clock elapsed times are parameters;
* Python generators are embedded as the full list of yielded chunks;
* functions that can raise are `Except String`-valued; a Python
  `AttributeError` on a missing feedparser field is an `Except.error`.

Call counts to the external service are observed by instrumenting the
embedding: each function also returns the list of (system, user) prompt
pairs it sent, in order.
-/

namespace Distil

/-- Python string slicing `s[:n]`: the first `n` characters (code points),
fewer when the string is shorter. -/
def pySlice (s : String) (n : Nat) : String := String.mk (s.data.take n)

/-- Helper for the substring test: does `needle` occur in `hay`? -/
def infixAux (needle : List Char) : List Char → Bool
  | [] => needle.isEmpty
  | c :: rest => needle.isPrefixOf (c :: rest) || infixAux needle rest

/-- Python substring test `needle in hay`. -/
def pyIn (needle hay : String) : Bool := infixAux needle.data hay.data

/-- One content item handed to the Batched Summarizer: the dict keys
`title`, `link`, `content` that llm.py reads. -/
structure Item where
  title : String
  link : String
  content : String
deriving DecidableEq

/-- The `for i, item in enumerate(items, 1)` loop shared by
`build_distil_prompt` (prompts.py) and `_build_batch_prompt` (llm.py):
one Item section per item, numbered from `i`. -/
def itemLines : List Item → Nat → String
  | [], _ => ""
  | it :: rest, i =>
      "\n### Item " ++ toString i ++ "\n"
        ++ "**Title:** " ++ it.title ++ "\n"
        ++ "**Link:** " ++ it.link ++ "\n"
        ++ "**Content:** " ++ it.content ++ "\n"
        ++ itemLines rest (i + 1)

/-- Embeds `build_distil_prompt` (prompts.py). -/
def build_distil_prompt (items : List Item) (reading_time : Nat) (domain : String) : String :=
  "Generate a " ++ toString reading_time
    ++ "-minute weekly distil for quick scanning and prioritisation.\n\n"
    ++ "**Instructions:**\n"
    ++ "- Group content by theme when clear patterns emerge\n"
    ++ "- For each item: ONE concise sentence highlighting what's new/important for "
    ++ domain ++ "\n"
    ++ "- Include links as [Title](URL)\n"
    ++ "- Use bullet points for rapid scanning\n"
    ++ "- Keep summaries brief - goal is to quickly decide what deserves deeper attention\n"
    ++ "- End with \"Key Takeaways\" section (3-5 bullets)\n\n"
    ++ "**Content (" ++ toString items.length ++ " items):**\n\n"
    ++ itemLines items 1

/-- Embeds `_build_batch_prompt` (llm.py). -/
def build_batch_prompt (items : List Item) (batch_number : Nat) : String :=
  "Summarize this batch of content items (Batch " ++ toString batch_number ++ "):\n\n"
    ++ "**Instructions:**\n"
    ++ "- Create concise summaries highlighting key insights and strategic relevance\n"
    ++ "- Group by theme where possible\n"
    ++ "- Include titles and links: [Title](URL)\n"
    ++ "- Use bullet points for readability\n"
    ++ "- Focus on what's new, important, or actionable\n\n"
    ++ "**Content (" ++ toString items.length ++ " items):**\n\n"
    ++ itemLines items 1

/-- The `for i, summary in enumerate(batch_summaries, 1)` loop of
`_build_consolidation_prompt`. -/
def summaryLines : List String → Nat → String
  | [], _ => ""
  | s :: rest, i =>
      "\n## Batch " ++ toString i ++ " Summary\n" ++ s ++ "\n" ++ summaryLines rest (i + 1)

/-- Embeds `_build_consolidation_prompt` (llm.py). -/
def build_consolidation_prompt (batch_summaries : List String) (reading_time : Nat) : String :=
  "Consolidate these batch summaries into a final " ++ toString reading_time
    ++ "-minute weekly distil report.\n\n"
    ++ "**Instructions:**\n"
    ++ "- Merge related themes across batches\n"
    ++ "- Maintain all links and specific details\n"
    ++ "- Create coherent narrative flow\n"
    ++ "- End with \"Key Takeaways\" section (3-5 bullets)\n"
    ++ "- Target " ++ toString reading_time ++ " minutes reading time\n"
    ++ "- Use markdown formatting with clear sections\n\n"
    ++ "**Batch Summaries to Consolidate:**\n\n"
    ++ summaryLines batch_summaries 1

/-- Structural worker for `chunks`: `fuel` bounds the number of slices and
is consumed one per slice (the list shrinks by at least one element per
slice once `b ≥ 1`, so `fuel = l.length` is always enough). -/
def chunksAux (b : Nat) : Nat → List Item → List (List Item)
  | _, [] => []
  | 0, _ :: _ => []
  | fuel + 1, x :: xs =>
      if b = 0 then []
      else (x :: xs).take b :: chunksAux b fuel ((x :: xs).drop b)

/-- The batch slices `items[i : i + b]` for `i in range(0, len(items), b)`.
For `b = 0` Python's `range` raises; the embedding returns `[]` there (all
claims assume a positive batch size). -/
def chunks (b : Nat) (l : List Item) : List (List Item) := chunksAux b l.length l

theorem chunksAux_fuel (b : Nat) :
    ∀ (f1 f2 : Nat) (l : List Item), l.length ≤ f1 → l.length ≤ f2 →
      chunksAux b f1 l = chunksAux b f2 l := by
  intro f1
  induction f1 with
  | zero =>
    intro f2 l hl _
    have hnil : l = [] := List.length_eq_zero.mp (Nat.le_zero.mp hl)
    subst hnil
    cases f2 <;> rfl
  | succ f ih =>
    intro f2 l hl1 hl2
    cases l with
    | nil => cases f2 <;> rfl
    | cons x xs =>
      cases f2 with
      | zero => simp at hl2
      | succ g =>
        by_cases hb : b = 0
        · simp [chunksAux, hb]
        · have hdlen : ((x :: xs).drop b).length = xs.length + 1 - b := by
            simp [List.length_drop]
          simp only [chunksAux, if_neg hb]
          rw [ih g ((x :: xs).drop b) (by simp only [List.length_cons] at hl1; omega)
            (by simp only [List.length_cons] at hl2; omega)]

theorem chunks_nil (b : Nat) : chunks b [] = [] := rfl

theorem chunks_cons (b : Nat) (hb : b ≠ 0) (x : Item) (xs : List Item) :
    chunks b (x :: xs) = (x :: xs).take b :: chunks b ((x :: xs).drop b) := by
  show chunksAux b (x :: xs).length (x :: xs) = _
  simp only [List.length_cons, chunksAux, if_neg hb]
  rw [chunksAux_fuel b xs.length ((x :: xs).drop b).length ((x :: xs).drop b)
    (by simp only [List.length_drop, List.length_cons]; omega) (Nat.le_refl _)]
  rfl

/-- Ceiling division step used by the batch-count argument: for a nonempty
list the Python batch count `(n + b - 1) // b` peels off one batch. -/
theorem ceil_div_step (len b : Nat) (hlen : 1 ≤ len) (hb : 0 < b) :
    (len + b - 1) / b = (len - b + b - 1) / b + 1 := by
  have hrw : len + b - 1 = (len - 1) + b := by omega
  rw [hrw, Nat.add_div_right _ hb]
  rcases le_or_lt len b with hle | hlt
  · have h1 : len - 1 < b := by omega
    have h2 : len - b + b - 1 < b := by omega
    rw [Nat.div_eq_of_lt h1, Nat.div_eq_of_lt h2]
  · have harg : len - b + b - 1 = len - 1 := by omega
    rw [harg]

theorem chunks_length_aux (b : Nat) (hb : 0 < b) :
    ∀ (n : Nat) (l : List Item), l.length ≤ n →
      (chunks b l).length = (l.length + b - 1) / b := by
  intro n
  induction n with
  | zero =>
    intro l hl
    have hnil : l = [] := List.length_eq_zero.mp (Nat.le_zero.mp hl)
    subst hnil
    rw [chunks_nil]
    simp only [List.length_nil]
    rw [Nat.div_eq_of_lt (by omega)]
  | succ n ih =>
    intro l hl
    cases l with
    | nil =>
      rw [chunks_nil]
      simp only [List.length_nil]
      rw [Nat.div_eq_of_lt (by omega)]
    | cons x xs =>
      rw [chunks_cons b (by omega) x xs]
      have hdroplen : ((x :: xs).drop b).length = (x :: xs).length - b := by
        simp [List.length_drop]
      have hle2 : ((x :: xs).drop b).length ≤ n := by
        rw [hdroplen]
        simp only [List.length_cons] at hl ⊢
        omega
      have hrec := ih _ hle2
      simp only [List.length_cons, hrec, hdroplen, List.length_cons]
      rw [ceil_div_step (xs.length + 1) b (by omega) hb]

/-- The number of batches equals the Python total `(n + b - 1) // b`. -/
theorem chunks_length (b : Nat) (hb : 0 < b) (l : List Item) :
    (chunks b l).length = (l.length + b - 1) / b :=
  chunks_length_aux b hb l.length l (Nat.le_refl _)

/-- Embeds `generate_distil` (llm.py) over a deterministic total service:
one `completion` call; instrumented with the (system, user) prompt sent. -/
def generate_distil (llm : String → String → String) (system_prompt user_prompt : String) :
    String × List (String × String) :=
  (llm system_prompt user_prompt, [(system_prompt, user_prompt)])

/-- The `for i in range(0, len(items), batch_size)` loop of
`generate_distil_batched`: one `generate_distil` call per batch, batch
numbers counted from `j`; returns the accumulated `batch_summaries` and the
prompts sent. -/
def batchLoop (llm : String → String → String) (system_prompt : String) :
    List (List Item) → Nat → List String × List (String × String)
  | [], _ => ([], [])
  | bi :: rest, j =>
      ((generate_distil llm system_prompt (build_batch_prompt bi j)).1
          :: (batchLoop llm system_prompt rest (j + 1)).1,
        (generate_distil llm system_prompt (build_batch_prompt bi j)).2
          ++ (batchLoop llm system_prompt rest (j + 1)).2)

/-- Embeds `generate_distil_batched` (llm.py) over a deterministic total
service, instrumented with the list of prompts sent to the service. -/
def generate_distil_batched (llm : String → String → String) (system_prompt : String)
    (items : List Item) (batch_size reading_time : Nat) (domain : String) :
    String × List (String × String) :=
  if items.isEmpty then ("No items to process.", [])
  else if items.length ≤ batch_size then
    generate_distil llm system_prompt (build_distil_prompt items reading_time domain)
  else
    let mapped := batchLoop llm system_prompt (chunks batch_size items) 1
    let fin := generate_distil llm system_prompt (build_consolidation_prompt mapped.1 reading_time)
    (fin.1, mapped.2 ++ fin.2)

theorem batchLoop_calls_length (llm : String → String → String) (system_prompt : String)
    (bs : List (List Item)) (j : Nat) :
    (batchLoop llm system_prompt bs j).2.length = bs.length := by
  induction bs generalizing j with
  | nil => rfl
  | cons bi rest ih => simp [batchLoop, generate_distil, ih]

/-- C1: for `n` items and batch size `b > 0`, `generate_distil_batched`
issues no service call and returns the fixed message when `n = 0`, exactly
one call when `0 < n ≤ b`, and exactly `⌈n/b⌉ + 1 = (n + b - 1)/b + 1`
calls when `n > b`. -/
theorem c1_batched_call_count (llm : String → String → String) (system_prompt : String)
    (items : List Item) (b reading_time : Nat) (domain : String) (hb : 0 < b) :
    (items = [] →
        generate_distil_batched llm system_prompt items b reading_time domain
          = ("No items to process.", []))
    ∧ (items ≠ [] → items.length ≤ b →
        (generate_distil_batched llm system_prompt items b reading_time domain).2.length = 1)
    ∧ (b < items.length →
        (generate_distil_batched llm system_prompt items b reading_time domain).2.length
          = (items.length + b - 1) / b + 1) := by
  refine ⟨?_, ?_, ?_⟩
  · intro h
    subst h
    rfl
  · intro hne hle
    have hempty : items.isEmpty = false := by
      cases items with
      | nil => exact absurd rfl hne
      | cons a l => rfl
    simp [generate_distil_batched, hempty, hle, generate_distil]
  · intro hgt
    have hne : items ≠ [] := by
      intro h
      subst h
      simp at hgt
    have hempty : items.isEmpty = false := by
      cases items with
      | nil => exact absurd rfl hne
      | cons a l => rfl
    have hnotle : ¬ items.length ≤ b := by omega
    simp only [generate_distil_batched, hempty, Bool.false_eq_true, if_false, hnotle,
      List.length_append, batchLoop_calls_length, generate_distil]
    rw [chunks_length b hb items]
    simp

/-- Embeds `generate_distil` over a service whose call may raise: the
`except` clause in llm.py prints and re-raises, so the error passes
through unchanged. -/
def generate_distilE (llm : String → String → Except String String)
    (system_prompt user_prompt : String) : Except String String :=
  llm system_prompt user_prompt

/-- The batch loop of `generate_distil_batched` over a fallible service:
the loop body has no handler, so the first error aborts the loop. -/
def batchLoopE (llm : String → String → Except String String) (system_prompt : String) :
    List (List Item) → Nat → Except String (List String)
  | [], _ => .ok []
  | bi :: rest, j =>
      match generate_distilE llm system_prompt (build_batch_prompt bi j) with
      | .error e => .error e
      | .ok s =>
          match batchLoopE llm system_prompt rest (j + 1) with
          | .error e => .error e
          | .ok ss => .ok (s :: ss)

/-- Embeds `generate_distil_batched` over a fallible service: no
`try/except` anywhere in the function, so any service error propagates. -/
def generate_distil_batchedE (llm : String → String → Except String String)
    (system_prompt : String) (items : List Item) (batch_size reading_time : Nat)
    (domain : String) : Except String String :=
  if items.isEmpty then .ok "No items to process."
  else if items.length ≤ batch_size then
    generate_distilE llm system_prompt (build_distil_prompt items reading_time domain)
  else
    match batchLoopE llm system_prompt (chunks batch_size items) 1 with
    | .error e => .error e
    | .ok summaries =>
        generate_distilE llm system_prompt (build_consolidation_prompt summaries reading_time)

/-- The chunk loop of `generate_distil_streaming`: consumes the service's
content deltas (an empty delta is skipped, as the code tests
`delta.content` for truthiness), counts chunks and characters, and yields
the first-chunk and periodic progress markers when `show_progress`.
Returns (yields, final chunk count, final character count). -/
def streamLoop (show_progress : Bool) : List String → Nat → Nat → Bool → List String × Nat × Nat
  | [], count, chars, _ => ([], count, chars)
  | c :: rest, count, chars, first =>
      if c = "" then streamLoop show_progress rest count chars first
      else
        let count1 := count + 1
        let chars1 := chars + c.length
        let pre := if first = false && show_progress then
            ["🚀 First chunk received! Streaming response...\n\n"] else []
        let post := if show_progress && count1 % 20 = 0 then
            ["\n[📊 Progress: " ++ toString count1 ++ " chunks, " ++ toString chars1
              ++ " characters generated]\n"] else []
        let restOut := streamLoop show_progress rest count1 chars1 (first || show_progress)
        (pre ++ c :: post ++ restOut.1, restOut.2)

/-- Embeds `generate_distil_streaming` (llm.py) as the full list of yielded
chunks. The `except` clause catches any service error and yields it as a
final error chunk instead of propagating; on a clean stream the completion
marker is yielded last. -/
def generate_distil_streaming
    (streamF : String → String → Except String (List String × Option String))
    (system_prompt user_prompt model : String) (show_progress : Bool) : List String :=
  let connectMsg := if show_progress then ["🔌 Connecting to " ++ model ++ "...\n"] else []
  match streamF system_prompt user_prompt with
  | .error e =>
      connectMsg
        ++ [if show_progress then "\n\n❌ Error: " ++ e ++ "\n" else "\n\n❌ Error: " ++ e]
  | .ok (cs, err) =>
      let connectedMsg :=
        if show_progress then ["✅ Connected! Waiting for first response...\n"] else []
      let body := streamLoop show_progress cs 0 0 false
      match err with
      | some e =>
          connectMsg ++ connectedMsg ++ body.1
            ++ [if show_progress then "\n\n❌ Error: " ++ e ++ "\n" else "\n\n❌ Error: " ++ e]
      | none =>
          let finMsg := if show_progress then
              ["\n\n✅ Streaming completed! Total: " ++ toString body.2.1 ++ " chunks, "
                ++ toString body.2.2 ++ " characters\n"] else []
          connectMsg ++ connectedMsg ++ body.1 ++ finMsg

/-- The `'=' * 50` separator line of the streaming batched generator. -/
def eq50 : String := String.mk (List.replicate 50 '=')

/-- The per-item title display of a batch header in
`generate_distil_batched_streaming`: title truncated to 60 characters with
an ellipsis when longer. -/
def titleLines : List Item → Nat → List String
  | [], _ => []
  | it :: rest, idx =>
      ("  " ++ toString idx ++ ". " ++ pySlice it.title 60
        ++ (if it.title.length > 60 then "..." else "") ++ "\n") :: titleLines rest (idx + 1)

/-- The batch loop of `generate_distil_batched_streaming`: yields the batch
banner and item titles, streams the batch summary (accumulating every
yielded chunk, progress markers included, into the batch summary), then
yields the batch-completed markers. Returns (yields, batch summaries,
prompts sent). -/
def streamBatchLoop
    (streamF : String → String → Except String (List String × Option String))
    (system_prompt model : String) (total_batches batch_size n : Nat) :
    List (List Item) → Nat → List String × List String × List (String × String)
  | [], _ => ([], [], [])
  | bi :: rest, j =>
      let pre := [eq50 ++ "\n",
        "📦 BATCH " ++ toString j ++ "/" ++ toString total_batches ++ "\n",
        "📄 Processing " ++ toString bi.length ++ " items:\n"]
        ++ titleLines bi 1 ++ [eq50 ++ "\n\n"]
      let prompt := build_batch_prompt bi j
      let cs := generate_distil_streaming streamF system_prompt prompt model true
      let post := ["\n\n✅ Batch " ++ toString j ++ "/" ++ toString total_batches
          ++ " completed!\n",
        "📊 Progress: " ++ toString (j * batch_size) ++ "/" ++ toString n
          ++ " items processed\n\n"]
      let restOut :=
        streamBatchLoop streamF system_prompt model total_batches batch_size n rest (j + 1)
      (pre ++ cs ++ post ++ restOut.1, String.join cs :: restOut.2.1,
        (system_prompt, prompt) :: restOut.2.2)

/-- Embeds `generate_distil_batched_streaming` (llm.py) as the full list of
yielded chunks, instrumented with the prompts sent. The small (unbatched)
path calls `build_distil_prompt(items, reading_time)` with Python's default
domain "technology". -/
def generate_distil_batched_streaming
    (streamF : String → String → Except String (List String × Option String))
    (system_prompt : String) (items : List Item) (model : String)
    (batch_size reading_time : Nat) : List String × List (String × String) :=
  if items.isEmpty then (["❌ No items to process."], [])
  else
    let n := items.length
    let header := ["🚀 Starting distil generation with " ++ toString n ++ " items using "
        ++ model ++ "\n",
      "📋 Configuration: batch_size=" ++ toString batch_size ++ ", reading_time="
        ++ toString reading_time ++ " minutes\n\n"]
    if n ≤ batch_size then
      let user_prompt := build_distil_prompt items reading_time "technology"
      (header ++ ["✅ Processing " ++ toString n ++ " items normally (no batching needed)\n\n"]
        ++ generate_distil_streaming streamF system_prompt user_prompt model true,
        [(system_prompt, user_prompt)])
    else
      let total_batches := (n + batch_size - 1) / batch_size
      let loopOut := streamBatchLoop streamF system_prompt model total_batches batch_size n
          (chunks batch_size items) 1
      let consolidation_prompt := build_consolidation_prompt loopOut.2.1 reading_time
      let conChunks :=
        generate_distil_streaming streamF system_prompt consolidation_prompt model true
      ((header
          ++ ["🔄 Will process " ++ toString n ++ " items in " ++ toString total_batches
              ++ " batches\n\n"]
          ++ loopOut.1
          ++ [eq50 ++ "\n", "🔗 CONSOLIDATION PHASE\n",
              "📝 Combining " ++ toString loopOut.2.1.length
                ++ " batch summaries into final distil...\n",
              eq50 ++ "\n\n"]
          ++ conChunks)
        ++ ["\n\n🎉 DISTIL GENERATION COMPLETE!\n",
            "📊 Final stats: " ++ toString n ++ " items processed in "
              ++ toString total_batches ++ " batches\n"],
        loopOut.2.2 ++ [(system_prompt, consolidation_prompt)])

theorem streamBatchLoop_calls_length
    (streamF : String → String → Except String (List String × Option String))
    (system_prompt model : String) (total_batches batch_size n : Nat)
    (bs : List (List Item)) (j : Nat) :
    (streamBatchLoop streamF system_prompt model total_batches batch_size n bs j).2.2.length
      = bs.length := by
  induction bs generalizing j with
  | nil => rfl
  | cons bi rest ih => simp [streamBatchLoop, ih]

/-- A concrete five-element item list used by witnesses. -/
def wItems : List Item :=
  [⟨"T1", "L1", "C1"⟩, ⟨"T2", "L2", "C2"⟩, ⟨"T3", "L3", "C3"⟩,
    ⟨"T4", "L4", "C4"⟩, ⟨"T5", "L5", "C5"⟩]

/-- A concrete two-element item list used by witnesses and counterexamples. -/
def wItems2 : List Item := [⟨"T1", "L1", "C1"⟩, ⟨"T2", "L2", "C2"⟩]

/-- C1 witness: five items, batch size two: `(5 + 2 - 1)/2 + 1 = 4` calls. -/
theorem c1_batched_call_count_witness :
    (generate_distil_batched (fun _ u => u) "sys" wItems 2 5 "technology").2.length
      = (wItems.length + 2 - 1) / 2 + 1 :=
  (c1_batched_call_count (fun _ u => u) "sys" wItems 2 5 "technology" (by decide)).2.2
    (by decide)

/-- C2 counterexample: for the empty item list and a deterministic service
returning the empty string (streamed as no chunks), the concatenation of
the streaming chunks is "❌ No items to process." while the non-streaming
variant returns "No items to process.": the outputs are not byte-identical,
refuting the claim at this input. -/
theorem c2_counterexample :
    ¬ (String.join (generate_distil_batched_streaming (fun _ _ => .ok ([], none))
          "sys" [] "m" 3 5).1
        = (generate_distil_batched (fun _ _ => "") "sys" [] 3 5 "technology").1) := by
  decide

/-- C2 amended: the streaming variant decorates the data stream with
progress and status chunks, so its concatenation is not byte-identical to
the non-streaming output: for empty items it yields the single decorated
chunk "❌ No items to process." while the non-streaming variant returns
"No items to process.", and for nonempty items its first chunk is the
"🚀 Starting distil generation ..." banner rather than content. -/
theorem c2_amended_streaming_decorated
    (streamF : String → String → Except String (List String × Option String))
    (llm : String → String → String) (sys model domain : String) (b rt : Nat) :
    (generate_distil_batched_streaming streamF sys [] model b rt).1
        = ["❌ No items to process."]
    ∧ (generate_distil_batched llm sys [] b rt domain).1 = "No items to process."
    ∧ (∀ items : List Item, items ≠ [] →
        ((generate_distil_batched_streaming streamF sys items model b rt).1).head?
          = some ("🚀 Starting distil generation with " ++ toString items.length
              ++ " items using " ++ model ++ "\n")) := by
  refine ⟨rfl, rfl, ?_⟩
  intro items hne
  cases items with
  | nil => exact absurd rfl hne
  | cons x xs =>
    show (if (xs.length + 1) ≤ b then _ else _ : List String × List (String × String)).1.head?
        = _
    split <;> rfl

/-- C3 counterexample: with a service that raises "boom" on every call, the
streaming batched run on two items with batch size one does not propagate a
single error condition: it runs to completion — its last chunk is the
final-stats message — and delivers the error text three times, once per
batch call and once for the consolidation call. -/
theorem c3_counterexample :
    ((generate_distil_batched_streaming (fun _ _ => .error "boom") "sys" wItems2 "m" 1 5).1.filter
        (fun c => c = "\n\n❌ Error: boom\n")).length = 3
    ∧ (generate_distil_batched_streaming (fun _ _ => .error "boom") "sys" wItems2 "m" 1 5).1.getLast?
        = some "📊 Final stats: 2 items processed in 2 batches\n" := by
  exact ⟨by decide, by decide⟩

/-- C3 amended: service errors propagate through the non-streaming path —
with a service failing with `e` on every call and a nonempty item list,
`generate_distil_batchedE` returns exactly `.error e`, so no partial
markdown is synthesized — but the streaming variant does not propagate: it
still issues every batch call plus the consolidation call, and its chunk
stream runs to completion, ending with the two completion markers. -/
theorem c3_amended_error_propagation (e sys model domain : String) (items : List Item)
    (b rt : Nat) (hb : 0 < b) (hne : items ≠ []) :
    generate_distil_batchedE (fun _ _ => .error e) sys items b rt domain = .error e
    ∧ (b < items.length →
        ((generate_distil_batched_streaming (fun _ _ => .error e) sys items model b rt).2.length
            = (items.length + b - 1) / b + 1)
        ∧ ∃ p, (generate_distil_batched_streaming (fun _ _ => .error e) sys items model b rt).1
            = p ++ ["\n\n🎉 DISTIL GENERATION COMPLETE!\n",
                "📊 Final stats: " ++ toString items.length ++ " items processed in "
                  ++ toString ((items.length + b - 1) / b) ++ " batches\n"]) := by
  have hempty : items.isEmpty = false := by
    cases items with
    | nil => exact absurd rfl hne
    | cons a l => rfl
  constructor
  · by_cases hle : items.length ≤ b
    · simp [generate_distil_batchedE, hempty, hle, generate_distilE]
    · have hbne : b ≠ 0 := by omega
      cases items with
      | nil => exact absurd rfl hne
      | cons x xs =>
        simp only [generate_distil_batchedE, hempty, Bool.false_eq_true, if_false, hle,
          chunks_cons b hbne x xs, batchLoopE, generate_distilE]
  · intro hgt
    have hnotle : ¬ items.length ≤ b := by omega
    constructor
    · simp only [generate_distil_batched_streaming, hempty, Bool.false_eq_true, if_false,
        hnotle, List.length_append, streamBatchLoop_calls_length]
      rw [chunks_length b hb items]
      simp
    · simp only [generate_distil_batched_streaming, hempty, Bool.false_eq_true, if_false,
        hnotle]
      exact ⟨_, rfl⟩

/-- C3 amended witness: two items, batch size one, service always raising
"boom": the non-streaming batched call returns exactly that error. -/
theorem c3_amended_error_propagation_witness :
    generate_distil_batchedE (fun _ _ => .error "boom") "sys" wItems2 1 5 "technology"
      = .error "boom" :=
  (c3_amended_error_propagation "boom" "sys" "m" "technology" wItems2 1 5 (by decide)
    (by decide)).1

/-! ### core.py: the Feed Fetcher and the Collection Aggregator

Timestamps are seconds as integers; `datetime.now()` is the parameter
`now`, `timedelta(days = d)` is `d * 86400`. A feedparser entry field that
may be missing (or `None`) is an `Option`; accessing a missing `title` or
`link` attribute raises `AttributeError` in Python and is an
`Except.error` here, while `entry.get("summary", "")` defaults. Wall-clock
elapsed times are parameters (`fetch_time`), rendered by `fmtSecs` (the
embedding keeps whole seconds, so the `:.2f` rendering is `t ++ ".00"`). -/

/-- One feedparser entry, with the fields core.py reads. -/
structure Entry where
  title : Option String
  link : Option String
  summary : Option String
  published_parsed : Option Int
  updated_parsed : Option Int
deriving DecidableEq

/-- A parsed feed: the `bozo` malformation flag, its optional
`bozo_exception` detail, and the entry list (feedparser always provides
`entries`, so the `hasattr` guard collapses to the length test). -/
structure Feed where
  bozo : Bool
  bozo_exception : Option String
  entries : List Entry
deriving DecidableEq

/-- The status dict `fetch_rss` builds: keys `status`, `message`,
`total_entries`. -/
structure FeedStatus where
  status : String
  message : String
  total_entries : Nat
deriving DecidableEq

/-- One entry record appended to `recent_entries` by `fetch_rss`. -/
structure REntry where
  title : String
  link : String
  published : Int
  summary : String
deriving DecidableEq

/-- Rendering of a whole-second elapsed time with Python's `:.2f`. -/
def fmtSecs (t : Nat) : String := toString t ++ ".00"

/-- The publication-date resolution of `fetch_rss`: `published_parsed`,
else `updated_parsed`, else `datetime.now()`. -/
def resolveDate (now : Int) (e : Entry) : Int :=
  match e.published_parsed with
  | some t => t
  | none =>
      match e.updated_parsed with
      | some t => t
      | none => now

/-- Python truthiness of the `keywords` argument: `None` and `[]` are
falsy, so no keyword filtering happens for either. -/
def kwTruthy (keywords : Option (List String)) : Bool :=
  match keywords with
  | none => false
  | some ks => !ks.isEmpty

/-- The keyword test of `fetch_rss`: at least one keyword, lowercased, is
a substring of the lowercased `title + " " + summary`. -/
def keywordMatch (keywords : List String) (title summary : String) : Bool :=
  keywords.any (fun kw => pyIn kw.toLower (title ++ " " ++ summary).toLower)

/-- Python truthiness of `max_items` in the break test
`if max_items and len(recent_entries) >= max_items`: `None` and `0` are
falsy, so neither caps the result. -/
def maxReached (max_items : Option Nat) (count : Nat) : Bool :=
  match max_items with
  | none => false
  | some m => decide (m ≠ 0) && decide (count ≥ m)

/-- The `for entry in feed.entries` loop of `fetch_rss`: date resolution,
recency filter, keyword filter, append, `max_items` break. The loop runs
outside the function's `try`, so a missing `title` or `link` attribute
raises. -/
def entriesLoop (now cutoff : Int) (keywords : Option (List String))
    (max_items : Option Nat) : List Entry → List REntry → Except String (List REntry)
  | [], acc => .ok acc
  | e :: rest, acc =>
      let pub := resolveDate now e
      if pub < cutoff then entriesLoop now cutoff keywords max_items rest acc
      else
        match e.title with
        | none => .error "AttributeError: object has no attribute 'title'"
        | some title =>
            let summary := e.summary.getD ""
            if kwTruthy keywords && !keywordMatch (keywords.getD []) title summary then
              entriesLoop now cutoff keywords max_items rest acc
            else
              match e.link with
              | none => .error "AttributeError: object has no attribute 'link'"
              | some link =>
                  let acc2 := acc ++ [⟨title, link, pub, summary⟩]
                  if maxReached max_items acc2.length then .ok acc2
                  else entriesLoop now cutoff keywords max_items rest acc2

/-- Embeds `fetch_rss` (core.py). `parseResult` is the outcome of
`feedparser.parse(url)` (which can raise), `fetch_time` the measured
elapsed seconds. The `try` covers the parse and the status checks; the
entry loop after it is uncovered, so its exceptions propagate. -/
def fetch_rss (parseResult : Except String Feed) (fetch_time : Nat) (now : Int)
    (days_back : Int) (max_items : Option Nat) (keywords : Option (List String))
    (timeout : Nat) (verbose : Bool) : Except String (List REntry × FeedStatus) :=
  match parseResult with
  | .error e => .ok ([], ⟨"error", "Failed to fetch feed: " ++ e, 0⟩)
  | .ok feed =>
      let st0 : FeedStatus := ⟨"success", "", 0⟩
      let st1 := if feed.bozo then
          { st0 with
            status := "warning"
            message := "Feed parsing issues: " ++ feed.bozo_exception.getD "Unknown" }
        else st0
      if feed.entries.length = 0 then
        .ok ([], { st1 with
          status := "empty"
          message := "No entries found in feed (took " ++ fmtSecs fetch_time ++ "s)" })
      else
        let st2 := { st1 with total_entries := feed.entries.length }
        let st3 := if fetch_time > timeout then
            { st2 with
              status := "timeout"
              message := "Feed fetch took " ++ fmtSecs fetch_time ++ "s (timeout: "
                ++ toString timeout ++ "s)" }
          else st2
        let cutoff := now - days_back * 86400
        match entriesLoop now cutoff keywords max_items feed.entries [] with
        | .error e => .error e
        | .ok recent =>
            let st4 := if verbose && recent.isEmpty then
                { st3 with message := "No items matched filters (found "
                  ++ toString st3.total_entries ++ " total)" }
              else st3
            .ok (recent, st4)

/-- One feed configuration dict handed to `collect_content`: `url` is
required (the code indexes it directly), the rest are read with `.get`. -/
structure FeedConfig where
  url : String
  name : Option String
  keywords : Option (List String)
  max_items : Option Nat
deriving DecidableEq

/-- One value of the `feed_health_report` dict built by `collect_content`. -/
structure FeedHealth where
  url : String
  status : String
  message : String
  total_entries : Nat
  filtered_entries : Nat
  fetch_time : Nat
  keywords : Option (List String)
  max_items : Option Nat
deriving DecidableEq

/-- One content item collected by `collect_content`: articles carry their
feed's url as `source_url`, video items have no such key. -/
structure CItem where
  type : String
  source : String
  source_url : Option String
  title : String
  content : String
  link : String
  date : Int
deriving DecidableEq

/-- A subtitle file found by the `Path(transcript_dir).glob("*.vtt")` scan:
its path string, its stem, and the caption text `parse_vtt` extracts. -/
structure VttFile where
  path : String
  stem : String
  text : String
deriving DecidableEq

/-- Python dict assignment `d[k] = v` on a dict kept as an insertion-ordered
association list: overwrite in place when the key exists, append otherwise. -/
def dictInsert (k : String) (v : FeedHealth) :
    List (String × FeedHealth) → List (String × FeedHealth)
  | [] => [(k, v)]
  | (k2, v2) :: rest =>
      if k2 = k then (k, v) :: rest else (k2, v2) :: dictInsert k v rest

/-- The display name of each feed, in order:
`feed_config.get("name", f"Feed {i}")` for `i` counted from `i0`. -/
def feedNames : List FeedConfig → Nat → List String
  | [], _ => []
  | cfg :: rest, i => cfg.name.getD ("Feed " ++ toString i) :: feedNames rest (i + 1)

/-- The `for i, feed_config in enumerate(rss_feeds, 1)` loop of
`collect_content`: fetch each feed inside `try`, record one health entry
either way, append the surviving entries as article items (content capped
at 2000 characters); an exception from the fetch is caught and recorded as
an "error" health entry, and the loop continues. `parseOf` and `timeOf`
give each url its parse outcome and measured parse time; `elapsedOf` the
`time.time() - start_time` recorded in the health entry. -/
def feedLoop (parseOf : String → Except String Feed) (timeOf elapsedOf : String → Nat)
    (now : Int) (days_back : Int) (feed_timeout : Nat) (verbose : Bool) :
    List FeedConfig → Nat → List CItem → List (String × FeedHealth) →
      List CItem × List (String × FeedHealth)
  | [], _, collected, health => (collected, health)
  | cfg :: rest, i, collected, health =>
      let name := cfg.name.getD ("Feed " ++ toString i)
      match fetch_rss (parseOf cfg.url) (timeOf cfg.url) now days_back cfg.max_items
          cfg.keywords feed_timeout verbose with
      | .ok (entries, status) =>
          let h : FeedHealth := ⟨cfg.url, status.status, status.message,
            status.total_entries, entries.length, elapsedOf cfg.url, cfg.keywords,
            cfg.max_items⟩
          let newItems := entries.map (fun e =>
            (⟨"article", name, some cfg.url, e.title, pySlice e.summary 2000, e.link,
              e.published⟩ : CItem))
          feedLoop parseOf timeOf elapsedOf now days_back feed_timeout verbose rest (i + 1)
            (collected ++ newItems) (dictInsert name h health)
      | .error e =>
          let h : FeedHealth := ⟨cfg.url, "error", "Unexpected error: " ++ e, 0, 0,
            elapsedOf cfg.url, cfg.keywords, cfg.max_items⟩
          feedLoop parseOf timeOf elapsedOf now days_back feed_timeout verbose rest (i + 1)
            collected (dictInsert name h health)

/-- Embeds `collect_content` (core.py). `youtube_urls` truthiness guards the
transcript phase; `vttFiles` is what the directory glob finds, appended as
video items with content capped at 5000 characters.
`min_items_threshold` only affects printing, never the result. -/
def collect_content (parseOf : String → Except String Feed) (timeOf elapsedOf : String → Nat)
    (now : Int) (rss_feeds : List FeedConfig) (youtube_urls : List String)
    (vttFiles : List VttFile) (days_back : Int) (feed_timeout : Nat)
    (min_items_threshold : Nat) (verbose : Bool) :
    List CItem × List (String × FeedHealth) :=
  let fetched := feedLoop parseOf timeOf elapsedOf now days_back feed_timeout verbose
    rss_feeds 1 [] []
  let collected := if youtube_urls.isEmpty then fetched.1
    else fetched.1 ++ vttFiles.map (fun f =>
      (⟨"video", "youtube", none, f.stem.replace ".en" "", pySlice f.text 5000, f.path,
        now⟩ : CItem))
  (collected, fetched.2)

/-- A feed whose single (recent) entry has no `title` attribute. -/
def wBadFeed : Feed := ⟨false, none, [⟨none, some "L", some "S", some 1000, none⟩]⟩

/-- C4 counterexample: a feed that parses fine but whose entry lacks a
`title` raises in the per-entry processing loop, which sits outside the
`try` of `fetch_rss`: the exception propagates instead of being mapped to
a status-"error" result, refuting the claim for exceptions raised while
processing the feed. -/
theorem c4_counterexample :
    fetch_rss (.ok wBadFeed) 1 2000 7 none none 30 true
      = .error "AttributeError: object has no attribute 'title'" := by
  rfl

/-- C4 amended: an exception raised while fetching/parsing the feed (the
`feedparser.parse` call, inside the `try`) is caught, mapped to status
"error" with the exception message attached, and yields an empty entry
list; but the per-entry processing loop after the `try` is uncovered, so
an exception there (a missing `title` or `link` attribute) propagates to
the caller. -/
theorem c4_amended_parse_errors_caught (e : String) (ft : Nat) (now db : Int)
    (mi : Option Nat) (kw : Option (List String)) (tmo : Nat) (vb : Bool) :
    fetch_rss (.error e) ft now db mi kw tmo vb
      = .ok ([], ⟨"error", "Failed to fetch feed: " ++ e, 0⟩) := rfl

/-- C6: the entry date falls back `published_parsed` → `updated_parsed` →
`datetime.now()`; an entry with neither timestamp resolves to `now`, which
passes the recency filter whenever `days_back ≥ 0`, and the entry loop
keeps such an entry (no keyword filter, no cap): it is never dropped for a
missing date. -/
theorem c6_date_fallback (now t db : Int) (e : Entry) :
    (e.published_parsed = some t → resolveDate now e = t)
    ∧ (e.published_parsed = none → e.updated_parsed = some t → resolveDate now e = t)
    ∧ (e.published_parsed = none → e.updated_parsed = none →
        resolveDate now e = now ∧ (0 ≤ db → ¬ resolveDate now e < now - db * 86400))
    ∧ (0 ≤ db → ∀ (title link : String) (summ : Option String),
        entriesLoop now (now - db * 86400) none none
            [⟨some title, some link, summ, none, none⟩] []
          = .ok [⟨title, link, now, summ.getD ""⟩]) := by
  refine ⟨?_, ?_, ?_, ?_⟩
  · intro h
    simp [resolveDate, h]
  · intro h1 h2
    simp [resolveDate, h1, h2]
  · intro h1 h2
    have hres : resolveDate now e = now := by simp [resolveDate, h1, h2]
    exact ⟨hres, fun hdb => by rw [hres]; omega⟩
  · intro hdb title link summ
    simp only [entriesLoop, resolveDate]
    rw [if_neg (by omega : ¬ now < now - db * 86400)]
    simp [kwTruthy, maxReached, entriesLoop]

theorem maxReached_zero (n : Nat) : maxReached (some 0) n = false := by
  simp [maxReached]

theorem maxReached_none (n : Nat) : maxReached none n = false := rfl

theorem entriesLoop_zero_max (now cutoff : Int) (kw : Option (List String)) :
    ∀ (es : List Entry) (acc : List REntry),
      entriesLoop now cutoff kw (some 0) es acc = entriesLoop now cutoff kw none es acc := by
  intro es
  induction es with
  | nil => intro acc; rfl
  | cons e rest ih =>
    intro acc
    by_cases h1 : resolveDate now e < cutoff
    · simp only [entriesLoop, if_pos h1]
      exact ih acc
    · simp only [entriesLoop, if_neg h1]
      cases htitle : e.title with
      | none => rfl
      | some t =>
        cases hb2 : kwTruthy kw && !keywordMatch (kw.getD []) t (e.summary.getD "") with
        | true =>
          simp only [hb2, if_true]
          exact ih acc
        | false =>
          simp only [hb2, Bool.false_eq_true, if_false]
          cases hlink : e.link with
          | none => rfl
          | some l =>
            simp only [maxReached_zero, maxReached_none, Bool.false_eq_true, if_false]
            exact ih _

/-- C9: `max_items = 0` is falsy in Python's break test
`if max_items and len(recent_entries) >= max_items`, so it caps nothing:
`fetch_rss` with `max_items = 0` returns exactly what it returns with
`max_items = None` — every entry that passed the date and keyword
filters. -/
theorem c9_zero_max_items_is_no_cap (parseResult : Except String Feed) (ft : Nat)
    (now db : Int) (kw : Option (List String)) (tmo : Nat) (vb : Bool) :
    fetch_rss parseResult ft now db (some 0) kw tmo vb
      = fetch_rss parseResult ft now db none kw tmo vb := by
  cases parseResult with
  | error e => rfl
  | ok feed =>
    simp only [fetch_rss]
    rw [entriesLoop_zero_max]

/-- C7 counterexample: an over-timeout (31s > 30s) fetch of a
well-parsed feed with no entries reports status "empty", not "timeout":
the empty-feed early return comes before the timeout check, so the
universal claim fails for slow empty feeds. -/
theorem c7_counterexample :
    31 > 30
    ∧ fetch_rss (.ok ⟨false, none, []⟩) 31 0 7 none none 30 true
        = .ok ([], ⟨"empty", "No entries found in feed (took " ++ fmtSecs 31 ++ "s)", 0⟩)
    ∧ "empty" ≠ "timeout" := by
  refine ⟨by decide, rfl, by decide⟩

/-- C7 amended: exceeding the timeout only relabels the status, and only
when the timeout check is reached. For a successfully parsed feed with
entries, an over-timeout run reports "timeout" while still returning
exactly the entries that passed the date/keyword filters, and the entry
list is identical for any elapsed time — nothing is aborted or discarded.
But a slow fetch of an empty feed reports "empty", and a slow raising
parse reports "error": the empty-feed early return and the `except`
branch both come before the timeout check. -/
theorem c7_timeout_is_reporting_label (f : Feed) (t1 t2 : Nat) (now db : Int)
    (mi : Option Nat) (kw : Option (List String)) (tmo : Nat) (vb : Bool)
    (hslow : t1 > tmo) :
    (f.entries ≠ [] →
      ((fetch_rss (.ok f) t1 now db mi kw tmo vb).map Prod.fst
          = (fetch_rss (.ok f) t2 now db mi kw tmo vb).map Prod.fst)
      ∧ ∀ es st, fetch_rss (.ok f) t1 now db mi kw tmo vb = .ok (es, st) →
          st.status = "timeout"
          ∧ entriesLoop now (now - db * 86400) kw mi f.entries [] = .ok es)
    ∧ (f.entries = [] →
        fetch_rss (.ok f) t1 now db mi kw tmo vb
          = .ok ([], ⟨"empty", "No entries found in feed (took " ++ fmtSecs t1 ++ "s)",
              0⟩))
    ∧ (∀ e, fetch_rss (.error e) t1 now db mi kw tmo vb
        = .ok ([], ⟨"error", "Failed to fetch feed: " ++ e, 0⟩)) := by
  refine ⟨?_, ?_, fun e => rfl⟩
  · intro hne
    have hlen : ¬ f.entries.length = 0 := by
      intro h
      exact hne (List.length_eq_zero.mp h)
    constructor
    · simp only [fetch_rss, if_neg hlen]
      cases hloop : entriesLoop now (now - db * 86400) kw mi f.entries [] with
      | error e => simp
      | ok recent => simp [Except.map]
    · intro es st heq
      simp only [fetch_rss, if_neg hlen, if_pos hslow] at heq
      cases hloop : entriesLoop now (now - db * 86400) kw mi f.entries [] with
      | error e =>
        rw [hloop] at heq
        exact absurd heq (by simp)
      | ok recent =>
        rw [hloop] at heq
        simp only [Except.ok.injEq, Prod.mk.injEq] at heq
        obtain ⟨hes, hst⟩ := heq
        subst hes
        subst hst
        refine ⟨?_, rfl⟩
        split <;> rfl
  · intro h
    cases hb : f.bozo <;> simp [fetch_rss, h, hb]

/-- A concrete feed with one recent, titled, linked entry. -/
def wFeed : Feed := ⟨false, none, [⟨some "T", some "L", some "S", some 100, none⟩]⟩

/-- C7 witness: the same nonempty feed fetched in 31s (over the 30s
timeout) and in 0s yields the same entry list. -/
theorem c7_timeout_is_reporting_label_witness :
    (fetch_rss (.ok wFeed) 31 200 7 none none 30 true).map Prod.fst
      = (fetch_rss (.ok wFeed) 0 200 7 none none 30 true).map Prod.fst :=
  ((c7_timeout_is_reporting_label wFeed 31 0 200 7 none none 30 true (by decide)).1
    (by decide)).1

/-- C10: later status checks overwrite earlier ones in `fetch_rss`: a bozo
feed with no entries reports "empty" (not "warning") with the empty-feed
message, and a bozo feed with entries whose fetch exceeded the timeout
reports "timeout" (not "warning") with the timeout message (shown for runs
where something survived filtering, as the final verbose tweak only
rewrites the message when nothing matched). -/
theorem c10_last_status_wins (f : Feed) (ft : Nat) (now db : Int) (mi : Option Nat)
    (kw : Option (List String)) (tmo : Nat) (vb : Bool) (hbozo : f.bozo = true) :
    (f.entries = [] →
        fetch_rss (.ok f) ft now db mi kw tmo vb
          = .ok ([], ⟨"empty", "No entries found in feed (took " ++ fmtSecs ft ++ "s)", 0⟩))
    ∧ (f.entries ≠ [] → ft > tmo →
        ∀ es st, fetch_rss (.ok f) ft now db mi kw tmo vb = .ok (es, st) →
          st.status = "timeout"
          ∧ (es ≠ [] → st.message = "Feed fetch took " ++ fmtSecs ft ++ "s (timeout: "
              ++ toString tmo ++ "s)")) := by
  constructor
  · intro h
    simp [fetch_rss, h, hbozo]
  · intro hne hslow es st heq
    have hlen : ¬ f.entries.length = 0 := by
      intro h
      exact hne (List.length_eq_zero.mp h)
    simp only [fetch_rss, if_neg hlen, if_pos hslow] at heq
    cases hloop : entriesLoop now (now - db * 86400) kw mi f.entries [] with
    | error e =>
      rw [hloop] at heq
      exact absurd heq (by simp)
    | ok recent =>
      rw [hloop] at heq
      simp only [Except.ok.injEq, Prod.mk.injEq] at heq
      obtain ⟨hes, hst⟩ := heq
      subst hes
      subst hst
      constructor
      · split <;> rfl
      · intro hesne
        have hre : recent.isEmpty = false := by
          cases recent with
          | nil => exact absurd rfl hesne
          | cons a l => rfl
        rw [if_neg (by simp [hre])]

/-- A malformed (bozo) feed with no entries. -/
def wBozoFeed : Feed := ⟨true, some "bad xml", []⟩

/-- C10 witness: the bozo empty feed reports "empty", not "warning". -/
theorem c10_last_status_wins_witness :
    fetch_rss (.ok wBozoFeed) 1 0 7 none none 30 true
      = .ok ([], ⟨"empty", "No entries found in feed (took " ++ fmtSecs 1 ++ "s)", 0⟩) :=
  (c10_last_status_wins wBozoFeed 1 0 7 none none 30 true rfl).1 rfl

theorem dictInsert_keys_fresh (k : String) (v : FeedHealth)
    (h : List (String × FeedHealth)) (hk : k ∉ h.map Prod.fst) :
    (dictInsert k v h).map Prod.fst = h.map Prod.fst ++ [k] := by
  induction h with
  | nil => rfl
  | cons p rest ih =>
    obtain ⟨k2, v2⟩ := p
    simp only [List.map_cons, List.mem_cons] at hk
    push_neg at hk
    have hne : ¬ k2 = k := fun hh => hk.1 hh.symm
    simp only [dictInsert, if_neg hne, List.map_cons, List.cons_append, List.cons.injEq,
      true_and]
    exact ih hk.2

theorem feedLoop_health_keys (parseOf : String → Except String Feed)
    (timeOf elapsedOf : String → Nat) (now db : Int) (tmo : Nat) (vb : Bool) :
    ∀ (feeds : List FeedConfig) (i : Nat) (collected : List CItem)
      (health : List (String × FeedHealth)),
      (∀ nm ∈ feedNames feeds i, nm ∉ health.map Prod.fst) →
      (feedNames feeds i).Nodup →
      (feedLoop parseOf timeOf elapsedOf now db tmo vb feeds i collected health).2.map Prod.fst
        = health.map Prod.fst ++ feedNames feeds i := by
  intro feeds
  induction feeds with
  | nil =>
    intro i c health _ _
    simp [feedLoop, feedNames]
  | cons cfg rest ih =>
    intro i c health hfresh hnodup
    simp only [feedNames, List.nodup_cons] at hnodup
    obtain ⟨hnotin, hnodup2⟩ := hnodup
    have hname_fresh : cfg.name.getD ("Feed " ++ toString i) ∉ health.map Prod.fst :=
      hfresh _ (by simp [feedNames])
    have hfresh2 : ∀ hh : FeedHealth, ∀ nm ∈ feedNames rest (i + 1),
        nm ∉ (dictInsert (cfg.name.getD ("Feed " ++ toString i)) hh health).map Prod.fst := by
      intro hh nm hnm
      rw [dictInsert_keys_fresh _ _ _ hname_fresh]
      simp only [List.mem_append, List.mem_singleton]
      rintro (hin | heqn)
      · exact hfresh nm (by simp [feedNames, hnm]) hin
      · exact hnotin (heqn ▸ hnm)
    simp only [feedLoop]
    split
    · rw [ih (i + 1) _ _ (hfresh2 _) hnodup2, dictInsert_keys_fresh _ _ _ hname_fresh]
      simp [feedNames]
    · rw [ih (i + 1) _ _ (hfresh2 _) hnodup2, dictInsert_keys_fresh _ _ _ hname_fresh]
      simp [feedNames]

/-- C5: over any parse oracle — feeds may parse, fail, or raise — the
collection embedding is total (the per-feed `try` catches every fetch
exception and the loop continues), and for configs with pairwise-distinct
resolved names the health report holds exactly one entry per configured
feed, keyed in configuration order by the feeds' names. -/
theorem c5_health_one_entry_per_feed (parseOf : String → Except String Feed)
    (timeOf elapsedOf : String → Nat) (now : Int) (feeds : List FeedConfig)
    (youtube_urls : List String) (vtts : List VttFile) (db : Int) (tmo mint : Nat)
    (vb : Bool) (hnodup : (feedNames feeds 1).Nodup) :
    (collect_content parseOf timeOf elapsedOf now feeds youtube_urls vtts db tmo mint
        vb).2.map Prod.fst = feedNames feeds 1 := by
  have hkeys := feedLoop_health_keys parseOf timeOf elapsedOf now db tmo vb feeds 1 [] []
    (fun nm _ => by simp) hnodup
  simpa [collect_content] using hkeys

/-- Two feed configs, the second unnamed, with distinct resolved names. -/
def wFeeds : List FeedConfig :=
  [⟨"http://a", some "A", none, none⟩, ⟨"http://b", none, none, none⟩]

/-- C5 witness: one feed parses empty, the other's parse raises; the
health report still has exactly the two feeds' names, in order. -/
theorem c5_health_one_entry_per_feed_witness :
    (collect_content
        (fun u => if u = "http://a" then .ok ⟨false, none, []⟩ else .error "net down")
        (fun _ => 0) (fun _ => 0) 0 wFeeds [] [] 7 30 0 true).2.map Prod.fst
      = feedNames wFeeds 1 :=
  c5_health_one_entry_per_feed
    (fun u => if u = "http://a" then .ok ⟨false, none, []⟩ else .error "net down")
    (fun _ => 0) (fun _ => 0) 0 wFeeds [] [] 7 30 0 true (by decide)

theorem pySlice_length_le (s : String) (n : Nat) : (pySlice s n).length ≤ n := by
  show (s.data.take n).length ≤ n
  simp [List.length_take]

theorem feedLoop_article_items (parseOf : String → Except String Feed)
    (timeOf elapsedOf : String → Nat) (now db : Int) (tmo : Nat) (vb : Bool) :
    ∀ (feeds : List FeedConfig) (i : Nat) (collected : List CItem)
      (health : List (String × FeedHealth)) (it : CItem),
      it ∈ (feedLoop parseOf timeOf elapsedOf now db tmo vb feeds i collected health).1 →
      it ∈ collected ∨ (it.type = "article" ∧ ∃ s, it.content = pySlice s 2000) := by
  intro feeds
  induction feeds with
  | nil =>
    intro i c health it hmem
    exact Or.inl hmem
  | cons cfg rest ih =>
    intro i c health it hmem
    simp only [feedLoop] at hmem
    rcases hfr : fetch_rss (parseOf cfg.url) (timeOf cfg.url) now db cfg.max_items
        cfg.keywords tmo vb with e | pr
    · rw [hfr] at hmem
      exact ih _ _ _ it hmem
    · rw [hfr] at hmem
      rcases ih _ _ _ it hmem with hin | hprop
      · rcases List.mem_append.mp hin with hc | hnew
        · exact Or.inl hc
        · right
          obtain ⟨entry, _, rfl⟩ := List.mem_map.mp hnew
          exact ⟨rfl, entry.summary, rfl⟩
      · exact Or.inr hprop

/-- C8: every item `collect_content` returns respects its type's content
cap — at most 2000 characters for articles (`entry["summary"][:2000]`)
and at most 5000 for video transcripts (`text[:5000]`). -/
theorem c8_content_caps (parseOf : String → Except String Feed)
    (timeOf elapsedOf : String → Nat) (now : Int) (feeds : List FeedConfig)
    (youtube_urls : List String) (vtts : List VttFile) (db : Int) (tmo mint : Nat)
    (vb : Bool) (it : CItem)
    (hmem : it ∈ (collect_content parseOf timeOf elapsedOf now feeds youtube_urls vtts
        db tmo mint vb).1) :
    (it.type = "article" → it.content.length ≤ 2000)
    ∧ (it.type = "video" → it.content.length ≤ 5000) := by
  have hsplit : it ∈ (feedLoop parseOf timeOf elapsedOf now db tmo vb feeds 1 [] []).1
      ∨ (it.type = "video" ∧ ∃ s, it.content = pySlice s 5000) := by
    simp only [collect_content] at hmem
    by_cases hyt : youtube_urls.isEmpty
    · rw [if_pos hyt] at hmem
      exact Or.inl hmem
    · rw [if_neg hyt] at hmem
      rcases List.mem_append.mp hmem with h | h
      · exact Or.inl h
      · right
        obtain ⟨f, _, rfl⟩ := List.mem_map.mp h
        exact ⟨rfl, f.text, rfl⟩
  rcases hsplit with h | ⟨hv, s, hs⟩
  · rcases feedLoop_article_items parseOf timeOf elapsedOf now db tmo vb feeds 1 [] [] it h
      with hin | ⟨ha, s, hs⟩
    · simp at hin
    · constructor
      · intro _
        rw [hs]
        exact pySlice_length_le _ _
      · intro hvid
        rw [ha] at hvid
        exact absurd hvid (by decide)
  · constructor
    · intro hart
      rw [hv] at hart
      exact absurd hart (by decide)
    · intro _
      rw [hs]
      exact pySlice_length_le _ _

/-- A single-feed configuration whose parse yields `wFeed`. -/
def wFeeds1 : List FeedConfig := [⟨"http://a", some "A", none, none⟩]

/-- The article item that collecting `wFeeds1` over `wFeed` produces. -/
def wCItem : CItem := ⟨"article", "A", some "http://a", "T", pySlice "S" 2000, "L", 100⟩

/-- C8 witness: the one article item of a concrete collection run is under
both caps. -/
theorem c8_content_caps_witness :
    (wCItem.type = "article" → wCItem.content.length ≤ 2000)
    ∧ (wCItem.type = "video" → wCItem.content.length ≤ 5000) :=
  c8_content_caps (fun _ => .ok wFeed) (fun _ => 0) (fun _ => 0) 200 wFeeds1 [] [] 7 30 0
    true wCItem (by decide)

end Distil
